import Mathlib

/-!
Shallow embedding of the `nuuid` Rust crate (src/lib.rs, with the
`experimental_uuid` feature, plus the `ReprUuid` iteration in src/types.rs).

Machine integers are modelled as `Nat`; a `u8` is a `Nat` that is `< 256` in
every real execution, and wrap-around of `u64`/`u128` arithmetic is written
with an explicit `% 2^w`.  Byte strings (`&str`, `&[u8]`) are `List Nat` of
ASCII codes.  Fallible code returns `Option`.
-/

namespace Nuuid

/-- The `Bytes` type of lib.rs: `[u8; 16]`, one field per byte, index order
`b0` = byte 0 (most significant in the canonical big-endian layout). -/
structure Bytes where
  b0 : Nat
  b1 : Nat
  b2 : Nat
  b3 : Nat
  b4 : Nat
  b5 : Nat
  b6 : Nat
  b7 : Nat
  b8 : Nat
  b9 : Nat
  b10 : Nat
  b11 : Nat
  b12 : Nat
  b13 : Nat
  b14 : Nat
  b15 : Nat
  deriving DecidableEq, Repr

/-- Every field of a `Bytes` value is an actual byte (`u8`), i.e. `< 256`. -/
def Bytes.valid (b : Bytes) : Prop :=
  b.b0 < 256 ∧ b.b1 < 256 ∧ b.b2 < 256 ∧ b.b3 < 256 ∧
  b.b4 < 256 ∧ b.b5 < 256 ∧ b.b6 < 256 ∧ b.b7 < 256 ∧
  b.b8 < 256 ∧ b.b9 < 256 ∧ b.b10 < 256 ∧ b.b11 < 256 ∧
  b.b12 < 256 ∧ b.b13 < 256 ∧ b.b14 < 256 ∧ b.b15 < 256

instance (b : Bytes) : Decidable b.valid := by
  unfold Bytes.valid; infer_instance

/-- The byte array as a list, index order preserved. -/
def Bytes.toList (b : Bytes) : List Nat :=
  [b.b0, b.b1, b.b2, b.b3, b.b4, b.b5, b.b6, b.b7,
   b.b8, b.b9, b.b10, b.b11, b.b12, b.b13, b.b14, b.b15]

/-- The `Uuid` struct of lib.rs: `pub struct Uuid(Bytes)`. -/
structure Uuid where
  bytes : Bytes
  deriving DecidableEq, Repr

/-- The `Variant` enum of lib.rs. -/
inductive Variant where
  | Ncs
  | Rfc4122
  | Microsoft
  | Reserved
  deriving DecidableEq, Repr

/-- The `Version` enum of lib.rs with the `experimental_uuid` feature enabled,
in declaration order, so `Version as u8` is `0`..`9`. -/
inductive Version where
  | Nil
  | Time
  | Dce
  | Md5
  | Random
  | Sha1
  | Database
  | UnixTime
  | Vendor
  | Reserved
  deriving DecidableEq, Repr

/-- The discriminant `ver as u8` used by `set_version`. -/
def versionNum : Version → Nat
  | .Nil => 0
  | .Time => 1
  | .Dce => 2
  | .Md5 => 3
  | .Random => 4
  | .Sha1 => 5
  | .Database => 6
  | .UnixTime => 7
  | .Vendor => 8
  | .Reserved => 9

/-- The `[u8; 6]` node array of `Uuid::new_v1` / `Uuid::node`. -/
structure Node where
  n0 : Nat
  n1 : Nat
  n2 : Nat
  n3 : Nat
  n4 : Nat
  n5 : Nat
  deriving DecidableEq, Repr

/-- `Uuid::from_bytes`. -/
def Uuid.from_bytes (b : Bytes) : Uuid := ⟨b⟩

/-- `Uuid::to_bytes`. -/
def Uuid.to_bytes (u : Uuid) : Bytes := u.bytes

/-- `Uuid::nil`: `Uuid([0; 16])`. -/
def Uuid.nil : Uuid := ⟨⟨0, 0, 0, 0, 0, 0, 0, 0, 0, 0, 0, 0, 0, 0, 0, 0⟩⟩

/-- `Uuid::max` of lib.rs: the source literally reads `Uuid([1; 16])`,
an array whose sixteen `u8` elements each equal `1`. -/
def Uuid.max : Uuid := ⟨⟨1, 1, 1, 1, 1, 1, 1, 1, 1, 1, 1, 1, 1, 1, 1, 1⟩⟩

/-- `ReprUuid::max` of src/types.rs (an earlier design iteration of the same
crate): `Self { arr: [0xFF; 16] }`. -/
def ReprUuid.max : Bytes :=
  ⟨255, 255, 255, 255, 255, 255, 255, 255, 255, 255, 255, 255, 255, 255, 255, 255⟩

/-- `Uuid::swap_endian`: reverse bytes 0-3, swap bytes 4/5 and 6/7, leave
bytes 8-15 untouched. -/
def Uuid.swap_endian (u : Uuid) : Uuid :=
  ⟨⟨u.bytes.b3, u.bytes.b2, u.bytes.b1, u.bytes.b0,
    u.bytes.b5, u.bytes.b4,
    u.bytes.b7, u.bytes.b6,
    u.bytes.b8, u.bytes.b9, u.bytes.b10, u.bytes.b11,
    u.bytes.b12, u.bytes.b13, u.bytes.b14, u.bytes.b15⟩⟩

/-- `Uuid::from_bytes_me`. -/
def Uuid.from_bytes_me (b : Bytes) : Uuid := (Uuid.from_bytes b).swap_endian

/-- `Uuid::to_bytes_me`. -/
def Uuid.to_bytes_me (u : Uuid) : Bytes := u.swap_endian.to_bytes

/-- The 128-bit integer `u128::from_ne_bytes(self.0)` (modelled little-endian,
the native order of the reference machine; `is_nil` only compares it to 0, for
which the byte order is irrelevant). -/
def bytesToNatLe (b : Bytes) : Nat :=
  b.b0 + 256 * (b.b1 + 256 * (b.b2 + 256 * (b.b3 + 256 * (b.b4 + 256 * (b.b5 +
  256 * (b.b6 + 256 * (b.b7 + 256 * (b.b8 + 256 * (b.b9 + 256 * (b.b10 +
  256 * (b.b11 + 256 * (b.b12 + 256 * (b.b13 + 256 * (b.b14 + 256 * b.b15))))))))))))))

/-- `Uuid::is_nil`: `u128::from_ne_bytes(self.0) == 0`. -/
def Uuid.is_nil (u : Uuid) : Bool := bytesToNatLe u.bytes == 0

/-- `#[derive(Default)]` on `Uuid(Bytes)`: the derived instance is
`Uuid(<[u8; 16]>::default())`, and the array default is all zeros. -/
def Uuid.default : Uuid := Uuid.from_bytes ⟨0, 0, 0, 0, 0, 0, 0, 0, 0, 0, 0, 0, 0, 0, 0, 0⟩

/-- `Uuid::set_version`: `self.0[6] = (self.0[6] & 0xF) | ((ver as u8) << 4)`. -/
def Uuid.set_version (u : Uuid) (ver : Version) : Uuid :=
  ⟨{ u.bytes with b6 := (u.bytes.b6 &&& 0xF) ||| (versionNum ver <<< 4) }⟩

/-- `Uuid::set_variant`: overwrite only the variant-owned high bits of byte 8. -/
def Uuid.set_variant (u : Uuid) (ver : Variant) : Uuid :=
  ⟨{ u.bytes with b8 :=
      match ver with
      | .Ncs => u.bytes.b8 &&& 0x7F
      | .Rfc4122 => (u.bytes.b8 &&& 0x3F) ||| 0x80
      | .Microsoft => (u.bytes.b8 &&& 0x1F) ||| 0xC0
      | .Reserved => u.bytes.b8 ||| 0xE0 }⟩

/-- The body of `Uuid::variant` as a function of byte 8: look at the top three
bits and classify them by the match on `(Msb0, Msb1, Msb2)`. -/
def variantByte (b8 : Nat) : Variant :=
  let byte := (b8 >>> 5) &&& 0b111
  match ((byte >>> 2) &&& 1) == 1, ((byte >>> 1) &&& 1) == 1, (byte &&& 1) == 1 with
  | false, _, _ => .Ncs
  | true, false, _ => .Rfc4122
  | true, true, false => .Microsoft
  | true, true, true => .Reserved

/-- `Uuid::variant`. -/
def Uuid.variant (u : Uuid) : Variant := variantByte u.bytes.b8

/-- The body of `Uuid::version` as a function of byte 6: match on the four
high bits, `Reserved` for every pattern not naming a known version. -/
def versionByte (b6 : Nat) : Version :=
  match ((b6 >>> 7) &&& 1) == 1, ((b6 >>> 6) &&& 1) == 1,
        ((b6 >>> 5) &&& 1) == 1, ((b6 >>> 4) &&& 1) == 1 with
  | false, false, false, false => .Nil
  | false, false, false, true => .Time
  | false, false, true, false => .Dce
  | false, false, true, true => .Md5
  | false, true, false, false => .Random
  | false, true, false, true => .Sha1
  | false, true, true, false => .Database
  | false, true, true, true => .UnixTime
  | true, false, false, false => .Vendor
  | _, _, _, _ => .Reserved

/-- `Uuid::version`. -/
def Uuid.version (u : Uuid) : Version := versionByte u.bytes.b6

/-- `u64::from_be_bytes` on eight explicit bytes. -/
def be8 (a b c d e f g h : Nat) : Nat :=
  ((((((a * 256 + b) * 256 + c) * 256 + d) * 256 + e) * 256 + f) * 256 + g) * 256 + h

/-- `Uuid::timestamp`: both arms of the source's match on `version()` build
the same `u64::from_be_bytes` value, with the version nibble of byte 6
cleared. -/
def Uuid.timestamp (u : Uuid) : Nat :=
  match u.version with
  | .Database =>
      be8 (u.bytes.b6 &&& 0xF) u.bytes.b7 u.bytes.b4 u.bytes.b5
          u.bytes.b0 u.bytes.b1 u.bytes.b2 u.bytes.b3
  | _ =>
      be8 (u.bytes.b6 &&& 0xF) u.bytes.b7 u.bytes.b4 u.bytes.b5
          u.bytes.b0 u.bytes.b1 u.bytes.b2 u.bytes.b3

/-- `Uuid::clock_sequence`: `u16::from_be_bytes([self.0[8] & 0x3F, self.0[9]])`. -/
def Uuid.clock_sequence (u : Uuid) : Nat :=
  (u.bytes.b8 &&& 0x3F) * 256 + u.bytes.b9

/-- `Uuid::node`: bytes 10-15 verbatim. -/
def Uuid.node (u : Uuid) : Node :=
  ⟨u.bytes.b10, u.bytes.b11, u.bytes.b12, u.bytes.b13, u.bytes.b14, u.bytes.b15⟩

/-- Byte `i` of `t.to_be_bytes()` for a `u64` `t` (byte 0 most significant). -/
def u64Byte (t i : Nat) : Nat := (t >>> (8 * (7 - i))) &&& 255

/-- `Uuid::new_v1`: pack timestamp, counter, node exactly as the source array
literal does, setting the version and variant bits inline. -/
def Uuid.new_v1 (timestamp : Nat) (counter : Nat) (node : Node) : Uuid :=
  Uuid.from_bytes
    ⟨u64Byte timestamp 4, u64Byte timestamp 5, u64Byte timestamp 6, u64Byte timestamp 7,
     u64Byte timestamp 2, u64Byte timestamp 3,
     (u64Byte timestamp 0 &&& 0xF) ||| (1 <<< 4), u64Byte timestamp 1,
     (((counter >>> 8) &&& 255) &&& 0x3F) ||| 0x80, counter &&& 255,
     node.n0, node.n1, node.n2, node.n3, node.n4, node.n5⟩

/-- `Uuid::new_v6`: same fields with the (wrapping) `timestamp << 4`
reordering and version nibble 6. -/
def Uuid.new_v6 (timestamp : Nat) (counter : Nat) (node : Node) : Uuid :=
  let ts := (timestamp <<< 4) % 2 ^ 64
  Uuid.from_bytes
    ⟨u64Byte ts 0, u64Byte ts 1, u64Byte ts 2, u64Byte ts 3,
     u64Byte ts 4, u64Byte ts 5,
     (u64Byte ts 6 >>> 4) ||| (6 <<< 4), u64Byte ts 7,
     (((counter >>> 8) &&& 255) &&& 0x3F) ||| 0x80, counter &&& 255,
     node.n0, node.n1, node.n2, node.n3, node.n4, node.n5⟩

/-- `Uuid::new_v7`: 48-bit unix-millisecond timestamp (wrapping
`timestamp << 16`), 12 bits of `rand_a`, 62 bits of `rand_b`. -/
def Uuid.new_v7 (timestamp : Nat) (rand_a : Nat) (rand_b : Nat) : Uuid :=
  let ts := (timestamp <<< 16) % 2 ^ 64
  Uuid.from_bytes
    ⟨u64Byte ts 0, u64Byte ts 1, u64Byte ts 2, u64Byte ts 3,
     u64Byte ts 4, u64Byte ts 5,
     (((rand_a >>> 8) &&& 255) &&& 0xF) ||| (7 <<< 4), rand_a &&& 255,
     (u64Byte rand_b 0 &&& 0x3F) ||| 0x80, u64Byte rand_b 1,
     u64Byte rand_b 2, u64Byte rand_b 3, u64Byte rand_b 4, u64Byte rand_b 5,
     u64Byte rand_b 6, u64Byte rand_b 7⟩

/-- `Uuid::new_v8`: caller bytes verbatim, then `set_variant`/`set_version`. -/
def Uuid.new_v8 (bytes : Bytes) : Uuid :=
  ((Uuid.from_bytes bytes).set_variant .Rfc4122).set_version .Vendor

/-- `Uuid::new_v4_rng`: the ChaCha CSPRNG is an external byte source (the spec
treats it as an opaque "fill random bytes" capability); `randomBytes` stands
for the 16 bytes `rng.fill_bytes` wrote into the nil UUID before the variant
and version bits are set. -/
def Uuid.new_v4_rng (randomBytes : Bytes) : Uuid :=
  ((Uuid.from_bytes randomBytes).set_variant .Rfc4122).set_version .Random

/-- Lowercase hex digit for a nibble, as its ASCII code (`hex_simd`'s
`AsciiCase::Lower`). -/
def hexLower (n : Nat) : Nat := if n < 10 then 48 + n else 87 + n

/-- The two lowercase hex characters of one byte, high nibble first. -/
def hexByte (b : Nat) : List Nat := [hexLower (b / 16), hexLower (b % 16)]

/-- `Uuid::to_str`: the 36-character hyphenated lowercase form as a list of
ASCII codes; hyphens (code 45) land at offsets 8, 13, 18 and 23, and the six
RFC fields are hex-encoded in between, exactly as the source writes them into
`buf`. -/
def Uuid.to_str (u : Uuid) : List Nat :=
  hexByte u.bytes.b0 ++ hexByte u.bytes.b1 ++ hexByte u.bytes.b2 ++ hexByte u.bytes.b3 ++
  [45] ++ hexByte u.bytes.b4 ++ hexByte u.bytes.b5 ++
  [45] ++ hexByte u.bytes.b6 ++ hexByte u.bytes.b7 ++
  [45] ++ hexByte u.bytes.b8 ++ hexByte u.bytes.b9 ++
  [45] ++ hexByte u.bytes.b10 ++ hexByte u.bytes.b11 ++ hexByte u.bytes.b12 ++
  hexByte u.bytes.b13 ++ hexByte u.bytes.b14 ++ hexByte u.bytes.b15

/-- Value of one ASCII hex digit, case insensitive (the digit alphabet of
`hex_simd::decode_inplace` and of `u128::from_str_radix(_, 16)`). -/
def hexDigitVal (c : Nat) : Option Nat :=
  if 48 ≤ c ∧ c ≤ 57 then some (c - 48)
  else if 97 ≤ c ∧ c ≤ 102 then some (c - 87)
  else if 65 ≤ c ∧ c ≤ 70 then some (c - 55)
  else none

/-- Hex-decode an even-length character list into bytes, high nibble first
per byte: the semantics of `hex_simd::decode_inplace`, failing on any
non-hex character. -/
def decodeHexPairs : List Nat → Option (List Nat)
  | [] => some []
  | [_] => none
  | a :: b :: rest => do
      let hi ← hexDigitVal a
      let lo ← hexDigitVal b
      let r ← decodeHexPairs rest
      pure (((hi <<< 4) ||| lo) :: r)

/-- The copy step of `Uuid::parse` for a 36-character hyphenated form: the
source copies `s[..8]`, `s[9..13]`, `s[14..18]`, `s[19..23]` and `s[24..]`
into `raw`, skipping offsets 8, 13, 18 and 23 entirely. -/
def extract36 (s : List Nat) : List Nat :=
  [s.getD 0 0, s.getD 1 0, s.getD 2 0, s.getD 3 0,
   s.getD 4 0, s.getD 5 0, s.getD 6 0, s.getD 7 0,
   s.getD 9 0, s.getD 10 0, s.getD 11 0, s.getD 12 0,
   s.getD 14 0, s.getD 15 0, s.getD 16 0, s.getD 17 0,
   s.getD 19 0, s.getD 20 0, s.getD 21 0, s.getD 22 0,
   s.getD 24 0, s.getD 25 0, s.getD 26 0, s.getD 27 0,
   s.getD 28 0, s.getD 29 0, s.getD 30 0, s.getD 31 0,
   s.getD 32 0, s.getD 33 0, s.getD 34 0, s.getD 35 0]

/-- The `x.try_into()` at the end of `Uuid::parse`: succeeds only on exactly
16 decoded bytes. -/
def listToUuid16 : List Nat → Option Uuid
  | [c0, c1, c2, c3, c4, c5, c6, c7, c8, c9, c10, c11, c12, c13, c14, c15] =>
      some (Uuid.from_bytes ⟨c0, c1, c2, c3, c4, c5, c6, c7, c8, c9, c10, c11, c12, c13, c14, c15⟩)
  | _ => none

/-- Decode a 36-character hyphenated form: reassemble the 32 digit characters
and hex-decode them. -/
def parseHyph (s : List Nat) : Option Uuid :=
  (decodeHexPairs (extract36 s)).bind listToUuid16

/-- One digit step of `u128::from_str_radix` for a non-negative number:
`checked_mul` by the radix then `checked_add` of the digit, overflow and
non-digits giving `None`. -/
def radixStepPos (acc : Option Nat) (c : Nat) : Option Nat := do
  let a ← acc
  let d ← hexDigitVal c
  let m := a * 16
  if m < 2 ^ 128 then
    if m + d < 2 ^ 128 then pure (m + d) else none
  else none

/-- `u128::from_str_radix(s, 16)`: empty input is an error; a leading `+`
(ASCII 43) is stripped (a bare `+` is an error); everything else - the `-`
arm of the core parser is guarded by `is_signed_ty`, false for `u128`, so a
leading `-` is NOT consumed - goes through the digit fold, where any
non-digit (including `-`) is an error. -/
def fromStrRadix16 (s : List Nat) : Option Nat :=
  match s with
  | [] => none
  | c :: rest =>
      if c = 43 then
        if rest.isEmpty then none else rest.foldl radixStepPos (some 0)
      else
        s.foldl radixStepPos (some 0)

/-- `v.to_be_bytes()` for a `u128` `v`, as a `Bytes` value. -/
def u128BeBytes (v : Nat) : Bytes :=
  ⟨(v >>> 120) &&& 255, (v >>> 112) &&& 255, (v >>> 104) &&& 255, (v >>> 96) &&& 255,
   (v >>> 88) &&& 255, (v >>> 80) &&& 255, (v >>> 72) &&& 255, (v >>> 64) &&& 255,
   (v >>> 56) &&& 255, (v >>> 48) &&& 255, (v >>> 40) &&& 255, (v >>> 32) &&& 255,
   (v >>> 24) &&& 255, (v >>> 16) &&& 255, (v >>> 8) &&& 255, v &&& 255⟩

/-- `Uuid::parse` on a list of character codes: reject non-ASCII input, then
dispatch on the length. Length 45 strips the first 9 characters, length 38
strips the first and last character, length 36 is decoded as-is, and length
32 goes through `u128::from_str_radix`; every other length is an error. -/
def Uuid.parse (s : List Nat) : Option Uuid :=
  if s.all (fun c => c < 128) then
    if s.length = 45 then parseHyph (s.drop 9)
    else if s.length = 38 then parseHyph ((s.drop 1).take 36)
    else if s.length = 36 then parseHyph s
    else if s.length = 32 then (fromStrRadix16 s).map (fun v => Uuid.from_bytes (u128BeBytes v))
    else none
  else none

/-- Rotate a 32-bit word left by `s` bits. -/
def rotl32 (x s : Nat) : Nat := ((x <<< s) ||| (x >>> (32 - s))) % 4294967296

/-- Bitwise complement of a 32-bit word. -/
def not32 (x : Nat) : Nat := 4294967295 ^^^ x

/-- Little-endian bytes of a 32-bit word. -/
def u32LeBytes (n : Nat) : List Nat :=
  [n &&& 255, (n >>> 8) &&& 255, (n >>> 16) &&& 255, (n >>> 24) &&& 255]

/-- Big-endian bytes of a 32-bit word. -/
def u32BeBytes (n : Nat) : List Nat :=
  [(n >>> 24) &&& 255, (n >>> 16) &&& 255, (n >>> 8) &&& 255, n &&& 255]

/-- Little-endian bytes of a 64-bit word. -/
def u64LeBytes (n : Nat) : List Nat :=
  [n &&& 255, (n >>> 8) &&& 255, (n >>> 16) &&& 255, (n >>> 24) &&& 255,
   (n >>> 32) &&& 255, (n >>> 40) &&& 255, (n >>> 48) &&& 255, (n >>> 56) &&& 255]

/-- Big-endian bytes of a 64-bit word. -/
def u64BeBytes (n : Nat) : List Nat :=
  [(n >>> 56) &&& 255, (n >>> 48) &&& 255, (n >>> 40) &&& 255, (n >>> 32) &&& 255,
   (n >>> 24) &&& 255, (n >>> 16) &&& 255, (n >>> 8) &&& 255, n &&& 255]

/-- Split a byte list into 64-byte blocks; the fuel argument (instantiated
with the list length) only makes the recursion structural. -/
def chunksAux : Nat → List Nat → List (List Nat)
  | 0, _ => []
  | _ + 1, [] => []
  | fuel + 1, l => l.take 64 :: chunksAux fuel (l.drop 64)

/-- Split a byte list into 64-byte blocks. -/
def chunks64 (l : List Nat) : List (List Nat) := chunksAux l.length l

/-- Merkle-Damgard padding: a `0x80` byte, zeros up to 56 mod 64, then the
bit length as eight bytes produced by `lenBytes`. -/
def mdPad (lenBytes : Nat → List Nat) (msg : List Nat) : List Nat :=
  let len := msg.length
  let padZeros := (120 - ((len + 1) % 64)) % 64
  msg ++ [128] ++ List.replicate padZeros 0 ++ lenBytes ((len * 8) % 2 ^ 64)

/-- MD5 state (A, B, C, D). -/
structure H4 where
  a : Nat
  b : Nat
  c : Nat
  d : Nat
  deriving DecidableEq, Repr

/-- The 16 little-endian message words of one 64-byte MD5 block. -/
def words16LE (block : List Nat) : List Nat :=
  (List.range 16).map fun i =>
    block.getD (4 * i) 0 + 256 * block.getD (4 * i + 1) 0 +
    65536 * block.getD (4 * i + 2) 0 + 16777216 * block.getD (4 * i + 3) 0

/-- The 64 MD5 round constants `floor(2^32 * abs(sin(i + 1)))`. -/
def md5K : List Nat :=
  [0xd76aa478, 0xe8c7b756, 0x242070db, 0xc1bdceee,
   0xf57c0faf, 0x4787c62a, 0xa8304613, 0xfd469501,
   0x698098d8, 0x8b44f7af, 0xffff5bb1, 0x895cd7be,
   0x6b901122, 0xfd987193, 0xa679438e, 0x49b40821,
   0xf61e2562, 0xc040b340, 0x265e5a51, 0xe9b6c7aa,
   0xd62f105d, 0x02441453, 0xd8a1e681, 0xe7d3fbc8,
   0x21e1cde6, 0xc33707d6, 0xf4d50d87, 0x455a14ed,
   0xa9e3e905, 0xfcefa3f8, 0x676f02d9, 0x8d2a4c8a,
   0xfffa3942, 0x8771f681, 0x6d9d6122, 0xfde5380c,
   0xa4beea44, 0x4bdecfa9, 0xf6bb4b60, 0xbebfbc70,
   0x289b7ec6, 0xeaa127fa, 0xd4ef3085, 0x04881d05,
   0xd9d4d039, 0xe6db99e5, 0x1fa27cf8, 0xc4ac5665,
   0xf4292244, 0x432aff97, 0xab9423a7, 0xfc93a039,
   0x655b59c3, 0x8f0ccc92, 0xffeff47d, 0x85845dd1,
   0x6fa87e4f, 0xfe2ce6e0, 0xa3014314, 0x4e0811a1,
   0xf7537e82, 0xbd3af235, 0x2ad7d2bb, 0xeb86d391]

/-- The 64 MD5 per-round left-rotation amounts. -/
def md5S : List Nat :=
  [7, 12, 17, 22, 7, 12, 17, 22, 7, 12, 17, 22, 7, 12, 17, 22,
   5, 9, 14, 20, 5, 9, 14, 20, 5, 9, 14, 20, 5, 9, 14, 20,
   4, 11, 16, 23, 4, 11, 16, 23, 4, 11, 16, 23, 4, 11, 16, 23,
   6, 10, 15, 21, 6, 10, 15, 21, 6, 10, 15, 21, 6, 10, 15, 21]

/-- One MD5 round `i` over message words `M`. -/
def md5Step (M : List Nat) (st : H4) (i : Nat) : H4 :=
  let f :=
    if i < 16 then (st.b &&& st.c) ||| (not32 st.b &&& st.d)
    else if i < 32 then (st.d &&& st.b) ||| (not32 st.d &&& st.c)
    else if i < 48 then st.b ^^^ st.c ^^^ st.d
    else st.c ^^^ (st.b ||| not32 st.d)
  let g :=
    if i < 16 then i
    else if i < 32 then (5 * i + 1) % 16
    else if i < 48 then (3 * i + 5) % 16
    else (7 * i) % 16
  let f' := (f + st.a + md5K.getD i 0 + M.getD g 0) % 4294967296
  ⟨st.d, (st.b + rotl32 f' (md5S.getD i 0)) % 4294967296, st.b, st.c⟩

/-- MD5 compression of one 64-byte block. -/
def md5Compress (st : H4) (block : List Nat) : H4 :=
  let M := words16LE block
  let r := (List.range 64).foldl (md5Step M) st
  ⟨(st.a + r.a) % 4294967296, (st.b + r.b) % 4294967296,
   (st.c + r.c) % 4294967296, (st.d + r.d) % 4294967296⟩

/-- MD5 digest (16 bytes) of a byte list: the `md-5` crate primitive the
spec treats as an opaque hash function, modelled in full. -/
def md5Bytes (msg : List Nat) : List Nat :=
  let st := (chunks64 (mdPad u64LeBytes msg)).foldl md5Compress
    ⟨0x67452301, 0xefcdab89, 0x98badcfe, 0x10325476⟩
  u32LeBytes st.a ++ u32LeBytes st.b ++ u32LeBytes st.c ++ u32LeBytes st.d

/-- SHA-1 state (h0-h4 / a-e). -/
structure H5 where
  a : Nat
  b : Nat
  c : Nat
  d : Nat
  e : Nat
  deriving DecidableEq, Repr

/-- The 80 expanded big-endian message words of one 64-byte SHA-1 block. -/
def sha1Words (block : List Nat) : List Nat :=
  (List.range 80).foldl
    (fun w i =>
      if i < 16 then
        w ++ [16777216 * block.getD (4 * i) 0 + 65536 * block.getD (4 * i + 1) 0 +
              256 * block.getD (4 * i + 2) 0 + block.getD (4 * i + 3) 0]
      else
        w ++ [rotl32 (w.getD (i - 3) 0 ^^^ w.getD (i - 8) 0 ^^^
                      w.getD (i - 14) 0 ^^^ w.getD (i - 16) 0) 1])
    []

/-- One SHA-1 round `i` over expanded words `w`. -/
def sha1Step (w : List Nat) (st : H5) (i : Nat) : H5 :=
  let f :=
    if i < 20 then (st.b &&& st.c) ||| (not32 st.b &&& st.d)
    else if i < 40 then st.b ^^^ st.c ^^^ st.d
    else if i < 60 then (st.b &&& st.c) ||| (st.b &&& st.d) ||| (st.c &&& st.d)
    else st.b ^^^ st.c ^^^ st.d
  let k :=
    if i < 20 then 0x5A827999
    else if i < 40 then 0x6ED9EBA1
    else if i < 60 then 0x8F1BBCDC
    else 0xCA62C1D6
  let temp := (rotl32 st.a 5 + f + st.e + k + w.getD i 0) % 4294967296
  ⟨temp, st.a, rotl32 st.b 30, st.c, st.d⟩

/-- SHA-1 compression of one 64-byte block. -/
def sha1Compress (st : H5) (block : List Nat) : H5 :=
  let w := sha1Words block
  let r := (List.range 80).foldl (sha1Step w) st
  ⟨(st.a + r.a) % 4294967296, (st.b + r.b) % 4294967296,
   (st.c + r.c) % 4294967296, (st.d + r.d) % 4294967296,
   (st.e + r.e) % 4294967296⟩

/-- SHA-1 digest (20 bytes) of a byte list: the `sha1` crate primitive the
spec treats as an opaque hash function, modelled in full. -/
def sha1Bytes (msg : List Nat) : List Nat :=
  let st := (chunks64 (mdPad u64BeBytes msg)).foldl sha1Compress
    ⟨0x67452301, 0xEFCDAB89, 0x98BADCFE, 0x10325476, 0xC3D2E1F0⟩
  u32BeBytes st.a ++ u32BeBytes st.b ++ u32BeBytes st.c ++ u32BeBytes st.d ++ u32BeBytes st.e

/-- First 16 bytes of a list as a `Bytes` value (`try_into` on a 16-byte
slice). -/
def Bytes.ofList16 (l : List Nat) : Bytes :=
  ⟨l.getD 0 0, l.getD 1 0, l.getD 2 0, l.getD 3 0,
   l.getD 4 0, l.getD 5 0, l.getD 6 0, l.getD 7 0,
   l.getD 8 0, l.getD 9 0, l.getD 10 0, l.getD 11 0,
   l.getD 12 0, l.getD 13 0, l.getD 14 0, l.getD 15 0⟩

/-- `Uuid::new_v3`: MD5 of the namespace bytes followed by the name bytes,
then `set_version(Md5)` and `set_variant(Rfc4122)`. -/
def Uuid.new_v3 (ns : Uuid) (name : List Nat) : Uuid :=
  ((Uuid.from_bytes (Bytes.ofList16 (md5Bytes (ns.to_bytes.toList ++ name)))).set_version
    .Md5).set_variant .Rfc4122

/-- `Uuid::new_v5`: the first 16 bytes of the SHA-1 of the namespace bytes
followed by the name bytes, then `set_version(Sha1)` and
`set_variant(Rfc4122)`. -/
def Uuid.new_v5 (ns : Uuid) (name : List Nat) : Uuid :=
  ((Uuid.from_bytes (Bytes.ofList16 ((sha1Bytes (ns.to_bytes.toList ++ name)).take 16))).set_version
    .Sha1).set_variant .Rfc4122

/-- The predefined DNS namespace constant `NAMESPACE_DNS`. -/
def NAMESPACE_DNS : Uuid :=
  Uuid.from_bytes ⟨107, 167, 184, 16, 157, 173, 17, 209, 128, 180, 0, 192, 79, 212, 48, 200⟩

/-- ASCII codes of the name `b"www.widgets.com"` used by the RFC Appendix B
test vector. -/
def wwwWidgetsName : List Nat :=
  [119, 119, 119, 46, 119, 105, 100, 103, 101, 116, 115, 46, 99, 111, 109]

/-- The RFC-Appendix-B-with-errata-1352 reference UUID
`3d813cbb-47fb-32ba-91df-831e1593ac29`. -/
def rfcAppendixBValue : Uuid :=
  Uuid.from_bytes ⟨0x3d, 0x81, 0x3c, 0xbb, 0x47, 0xfb, 0x32, 0xba,
                   0x91, 0xdf, 0x83, 0x1e, 0x15, 0x93, 0xac, 0x29⟩

/-- The 32 offsets of a 36-character hyphenated form that `Uuid::parse`
actually decodes; offsets 8, 13, 18 and 23 (the separators) are skipped. -/
def digitIdx36 : List Nat :=
  [0, 1, 2, 3, 4, 5, 6, 7, 9, 10, 11, 12, 14, 15, 16, 17, 19, 20, 21, 22,
   24, 25, 26, 27, 28, 29, 30, 31, 32, 33, 34, 35]

/-- ASCII codes of the scheme tag `urn:uuid:`. -/
def urnTag : List Nat := [117, 114, 110, 58, 117, 117, 105, 100, 58]

/-- ASCII codes of `662aa7c7z7598-4d56-8bcc-a72c30f998a2`: the valid test
UUID with the first separator replaced by `z` (code 122). -/
def sepZInput : List Nat :=
  [54, 54, 50, 97, 97, 55, 99, 55, 122, 55, 53, 57, 56, 45, 52, 100, 53, 54,
   45, 56, 98, 99, 99, 45, 97, 55, 50, 99, 51, 48, 102, 57, 57, 56, 97, 50]

/-- ASCII codes of `z62aa7c7-7598-4d56-8bcc-a72c30f998a2`: a `z` at digit
offset 0 of the hyphenated form. -/
def zDigitInput : List Nat :=
  [122, 54, 50, 97, 97, 55, 99, 55, 45, 55, 53, 57, 56, 45, 52, 100, 53, 54,
   45, 56, 98, 99, 99, 45, 97, 55, 50, 99, 51, 48, 102, 57, 57, 56, 97, 50]

/-- ASCII codes of `XXXXXXXXX662aa7c7-7598-4d56-8bcc-a72c30f998a2`: a
45-character string whose first 9 characters are not `urn:uuid:`. -/
def badUrnInput : List Nat :=
  [88, 88, 88, 88, 88, 88, 88, 88, 88, 54, 54, 50, 97, 97, 55, 99, 55, 45,
   55, 53, 57, 56, 45, 52, 100, 53, 54, 45, 56, 98, 99, 99, 45, 97, 55, 50,
   99, 51, 48, 102, 57, 57, 56, 97, 50]

/-- ASCII codes of `badlength` (9 characters). -/
def badLenInput : List Nat := [98, 97, 100, 108, 101, 110, 103, 116, 104]

/-- ASCII codes of a 32-character simple form consisting of a `-` sign
followed by 31 `0` digits. -/
def minusZerosInput : List Nat :=
  [45, 48, 48, 48, 48, 48, 48, 48, 48, 48, 48, 48, 48, 48, 48, 48,
   48, 48, 48, 48, 48, 48, 48, 48, 48, 48, 48, 48, 48, 48, 48, 48]

/-- The spec's version mapping, written from the spec's words: top nibble `0`
is Nil, `1` Time, ..., `8` Vendor, and `9`-`15` Reserved. -/
def versionSpecMap (n : Nat) : Version :=
  if n = 0 then .Nil
  else if n = 1 then .Time
  else if n = 2 then .Dce
  else if n = 3 then .Md5
  else if n = 4 then .Random
  else if n = 5 then .Sha1
  else if n = 6 then .Database
  else if n = 7 then .UnixTime
  else if n = 8 then .Vendor
  else .Reserved

theorem and15_lt (x : Nat) : x &&& 15 < 16 :=
  Nat.lt_succ_of_le Nat.and_le_right

theorem and63_lt (x : Nat) : x &&& 63 < 64 :=
  Nat.lt_succ_of_le Nat.and_le_right

theorem and255_lt (x : Nat) : x &&& 255 < 256 :=
  Nat.lt_succ_of_le Nat.and_le_right

theorem and255_shr4_lt (x : Nat) : (x &&& 255) >>> 4 < 16 := by
  have h : x &&& 255 < 256 := and255_lt x
  rw [Nat.shiftRight_eq_div_pow]
  omega

theorem and255_eq_mod (x : Nat) : x &&& 255 = x % 256 := by
  have h := Nat.and_pow_two_sub_one_eq_mod x 8
  norm_num at h
  exact h

theorem and15_eq_mod (x : Nat) : x &&& 15 = x % 16 := by
  have h := Nat.and_pow_two_sub_one_eq_mod x 4
  norm_num at h
  exact h

theorem variantByte_rfc : ∀ y : Fin 64, variantByte (y.val ||| 128) = Variant.Rfc4122 := by
  decide

theorem versionByte_or16 : ∀ y : Fin 16, versionByte (y.val ||| 16) = Version.Time := by
  decide

theorem versionByte_or48 : ∀ y : Fin 16, versionByte (y.val ||| 48) = Version.Md5 := by
  decide

theorem versionByte_or64 : ∀ y : Fin 16, versionByte (y.val ||| 64) = Version.Random := by
  decide

theorem versionByte_or80 : ∀ y : Fin 16, versionByte (y.val ||| 80) = Version.Sha1 := by
  decide

theorem versionByte_or96 : ∀ y : Fin 16, versionByte (y.val ||| 96) = Version.Database := by
  decide

theorem versionByte_or112 : ∀ y : Fin 16, versionByte (y.val ||| 112) = Version.UnixTime := by
  decide

theorem versionByte_or128 : ∀ y : Fin 16, versionByte (y.val ||| 128) = Version.Vendor := by
  decide

theorem or16_and15 : ∀ y : Fin 16, (y.val ||| 16) &&& 15 = y.val := by
  decide

theorem or128_and63 : ∀ y : Fin 64, (y.val ||| 128) &&& 63 = y.val := by
  decide

theorem orSet_and15 (x : Nat) : ((x &&& 15) ||| 16) &&& 15 = x &&& 15 :=
  or16_and15 ⟨x &&& 15, and15_lt x⟩

theorem orSet_and63 (x : Nat) : ((x &&& 63) ||| 128) &&& 63 = x &&& 63 :=
  or128_and63 ⟨x &&& 63, and63_lt x⟩

theorem and63_eq_mod (x : Nat) : x &&& 63 = x % 64 := by
  have h := Nat.and_pow_two_sub_one_eq_mod x 6
  norm_num at h
  exact h

set_option maxRecDepth 4096 in
theorem versionByte_eq_specMap : ∀ y : Fin 256,
    versionByte y.val = versionSpecMap (y.val >>> 4) := by
  decide

/-- C5: `Uuid::max()` in lib.rs evaluates to sixteen bytes each equal to `1`,
not the all-bits-one value `[0xFF; 16]` that its own doc comment ("where all
bits are set to one") and the sibling `ReprUuid::max` promise. -/
theorem max_bytes_are_one_not_ff :
    Uuid.max.to_bytes = ⟨1, 1, 1, 1, 1, 1, 1, 1, 1, 1, 1, 1, 1, 1, 1, 1⟩ ∧
    Uuid.max.to_bytes ≠ ReprUuid.max ∧
    ReprUuid.max = ⟨255, 255, 255, 255, 255, 255, 255, 255, 255, 255, 255, 255, 255, 255, 255, 255⟩ := by
  decide

/-- C6: the mixed-endian conversion round-trips on every UUID:
`from_bytes_me(to_bytes_me(u)) == u`. -/
theorem from_bytes_me_to_bytes_me_roundtrip (u : Uuid) :
    Uuid.from_bytes_me (Uuid.to_bytes_me u) = u := rfl

/-- C10: the derived `Uuid::default()` equals `Uuid::nil()` and is nil. -/
theorem default_is_nil : Uuid.default = Uuid.nil ∧ Uuid.default.is_nil = true := by
  decide

/-- C9: `version()` is total and returns the value named by the top 4 bits of
byte 6 under the mapping 0 Nil, 1 Time, 2 Dce, 3 Md5, 4 Random, 5 Sha1,
6 Database, 7 UnixTime, 8 Vendor, 9-15 Reserved. -/
theorem version_matches_nibble_map (u : Uuid) (h : u.bytes.b6 < 256) :
    u.version = versionSpecMap (u.bytes.b6 >>> 4) :=
  versionByte_eq_specMap ⟨u.bytes.b6, h⟩

theorem version_matches_nibble_map_witness :
    (Uuid.from_bytes ⟨3, 1, 4, 1, 5, 9, 0x9a, 6, 5, 3, 5, 8, 9, 7, 9, 3⟩).bytes.b6 < 256 ∧
    (Uuid.from_bytes ⟨3, 1, 4, 1, 5, 9, 0x9a, 6, 5, 3, 5, 8, 9, 7, 9, 3⟩).version =
      versionSpecMap ((Uuid.from_bytes ⟨3, 1, 4, 1, 5, 9, 0x9a, 6, 5, 3, 5, 8, 9, 7, 9, 3⟩).bytes.b6 >>> 4) :=
  ⟨by decide, version_matches_nibble_map _ (by decide)⟩

/-- C7: every generator's output carries variant Rfc4122 and the version that
generator claims to produce, for all inputs: v4 Random, v3 Md5, v5 Sha1,
v1 Time, v6 Database, v7 UnixTime, v8 Vendor. -/
theorem generators_tag_version_variant :
    (∀ rb : Bytes, (Uuid.new_v4_rng rb).variant = Variant.Rfc4122 ∧
      (Uuid.new_v4_rng rb).version = Version.Random) ∧
    (∀ ns name, (Uuid.new_v3 ns name).variant = Variant.Rfc4122 ∧
      (Uuid.new_v3 ns name).version = Version.Md5) ∧
    (∀ ns name, (Uuid.new_v5 ns name).variant = Variant.Rfc4122 ∧
      (Uuid.new_v5 ns name).version = Version.Sha1) ∧
    (∀ t c n, (Uuid.new_v1 t c n).variant = Variant.Rfc4122 ∧
      (Uuid.new_v1 t c n).version = Version.Time) ∧
    (∀ t c n, (Uuid.new_v6 t c n).variant = Variant.Rfc4122 ∧
      (Uuid.new_v6 t c n).version = Version.Database) ∧
    (∀ t ra rb, (Uuid.new_v7 t ra rb).variant = Variant.Rfc4122 ∧
      (Uuid.new_v7 t ra rb).version = Version.UnixTime) ∧
    (∀ bs : Bytes, (Uuid.new_v8 bs).variant = Variant.Rfc4122 ∧
      (Uuid.new_v8 bs).version = Version.Vendor) := by
  refine ⟨fun rb => ⟨?_, ?_⟩, fun ns name => ⟨?_, ?_⟩, fun ns name => ⟨?_, ?_⟩,
    fun t c n => ⟨?_, ?_⟩, fun t c n => ⟨?_, ?_⟩, fun t ra rb => ⟨?_, ?_⟩,
    fun bs => ⟨?_, ?_⟩⟩ <;>
    simp only [Uuid.new_v4_rng, Uuid.new_v3, Uuid.new_v5, Uuid.new_v1, Uuid.new_v6,
      Uuid.new_v7, Uuid.new_v8, Uuid.set_version, Uuid.set_variant, Uuid.from_bytes,
      Uuid.variant, Uuid.version, versionNum, u64Byte]
  · exact variantByte_rfc ⟨_ &&& 63, and63_lt _⟩
  · exact versionByte_or64 ⟨_ &&& 15, and15_lt _⟩
  · exact variantByte_rfc ⟨_ &&& 63, and63_lt _⟩
  · exact versionByte_or48 ⟨_ &&& 15, and15_lt _⟩
  · exact variantByte_rfc ⟨_ &&& 63, and63_lt _⟩
  · exact versionByte_or80 ⟨_ &&& 15, and15_lt _⟩
  · exact variantByte_rfc ⟨_ &&& 63, and63_lt _⟩
  · exact versionByte_or16 ⟨_ &&& 15, and15_lt _⟩
  · exact variantByte_rfc ⟨_ &&& 63, and63_lt _⟩
  · exact versionByte_or96 ⟨_ >>> 4, and255_shr4_lt _⟩
  · exact variantByte_rfc ⟨_ &&& 63, and63_lt _⟩
  · exact versionByte_or112 ⟨_ &&& 15, and15_lt _⟩
  · exact variantByte_rfc ⟨_ &&& 63, and63_lt _⟩
  · exact versionByte_or128 ⟨_ &&& 15, and15_lt _⟩

/-- C8: `new_v1` keeps exactly the low 60 bits of the timestamp, the low
14 bits of the counter, and the node verbatim, and the accessors recover
them. -/
theorem new_v1_field_roundtrip (t c : Nat) (n : Node) (ht : t < 2 ^ 64) (hc : c < 2 ^ 16) :
    (Uuid.new_v1 t c n).timestamp = t % 2 ^ 60 ∧
    (Uuid.new_v1 t c n).clock_sequence = c % 2 ^ 14 ∧
    (Uuid.new_v1 t c n).node = n := by
  have hv : (Uuid.new_v1 t c n).version = Version.Time := by
    simp only [Uuid.new_v1, Uuid.from_bytes, Uuid.version]
    exact versionByte_or16 ⟨_ &&& 15, and15_lt _⟩
  refine ⟨?_, ?_, ?_⟩
  · simp only [Uuid.timestamp, hv]
    simp only [Uuid.new_v1, Uuid.from_bytes, u64Byte, be8, Nat.shiftLeft_eq]
    norm_num
    rw [orSet_and15]
    simp only [Nat.shiftRight_eq_div_pow, and255_eq_mod, and15_eq_mod]
    norm_num
    omega
  · simp only [Uuid.clock_sequence, Uuid.new_v1, Uuid.from_bytes]
    rw [orSet_and63]
    simp only [Nat.shiftRight_eq_div_pow, and255_eq_mod, and63_eq_mod]
    norm_num
    omega
  · rfl

theorem new_v1_field_roundtrip_witness :
    138788330336896890 < 2 ^ 64 ∧ 8648 < 2 ^ 16 ∧
    ((Uuid.new_v1 138788330336896890 8648 ⟨119, 111, 114, 108, 100, 33⟩).timestamp =
        138788330336896890 % 2 ^ 60 ∧
      (Uuid.new_v1 138788330336896890 8648 ⟨119, 111, 114, 108, 100, 33⟩).clock_sequence =
        8648 % 2 ^ 14 ∧
      (Uuid.new_v1 138788330336896890 8648 ⟨119, 111, 114, 108, 100, 33⟩).node =
        ⟨119, 111, 114, 108, 100, 33⟩) :=
  ⟨by norm_num, by norm_num,
    new_v1_field_roundtrip 138788330336896890 8648 ⟨119, 111, 114, 108, 100, 33⟩
      (by norm_num) (by norm_num)⟩

theorem hexDigitVal_hexLower : ∀ n : Fin 16, hexDigitVal (hexLower n.val) = some n.val := by
  decide

set_option maxRecDepth 4096 in
theorem nibblesFin_recompose : ∀ y : Fin 256, ((y.val / 16) <<< 4) ||| (y.val % 16) = y.val := by
  decide

theorem hexLowerFin_lt : ∀ n : Fin 16, hexLower n.val < 128 := by
  decide

theorem hexLower_lt_128 (n : Nat) (hn : n < 16) : hexLower n < 128 :=
  hexLowerFin_lt ⟨n, hn⟩

theorem hexByte_roundtrip (x : Nat) (hx : x < 256) :
    hexDigitVal (hexLower (x / 16)) = some (x / 16) ∧
    hexDigitVal (hexLower (x % 16)) = some (x % 16) ∧
    ((x / 16) <<< 4) ||| (x % 16) = x := by
  have h1 : x / 16 < 16 := by omega
  have h2 : x % 16 < 16 := by omega
  exact ⟨hexDigitVal_hexLower ⟨_, h1⟩, hexDigitVal_hexLower ⟨_, h2⟩, nibblesFin_recompose ⟨x, hx⟩⟩

theorem parse_eq_parseHyph (s : List Nat) (hall : s.all (fun c => c < 128) = true)
    (hlen : s.length = 36) : Uuid.parse s = parseHyph s := by
  simp [Uuid.parse, hall, hlen]

set_option maxHeartbeats 1000000 in
/-- C2: for every 16-byte array `b`, parsing the 36-character string produced
by `to_str` on `from_bytes(b)` succeeds and the resulting UUID's `to_bytes`
equals `b`. -/
theorem parse_to_str_roundtrip (b : Bytes) (h : b.valid) :
    (Uuid.parse ((Uuid.from_bytes b).to_str)).map Uuid.to_bytes = some b := by
  obtain ⟨b0, b1, b2, b3, b4, b5, b6, b7, b8, b9, b10, b11, b12, b13, b14, b15⟩ := b
  have hb : b0 < 256 ∧ b1 < 256 ∧ b2 < 256 ∧ b3 < 256 ∧ b4 < 256 ∧ b5 < 256 ∧
      b6 < 256 ∧ b7 < 256 ∧ b8 < 256 ∧ b9 < 256 ∧ b10 < 256 ∧ b11 < 256 ∧
      b12 < 256 ∧ b13 < 256 ∧ b14 < 256 ∧ b15 < 256 := h
  obtain ⟨h0, h1, h2, h3, h4, h5, h6, h7, h8, h9, h10, h11, h12, h13, h14, h15⟩ := hb
  have r0 := hexByte_roundtrip b0 h0
  have r1 := hexByte_roundtrip b1 h1
  have r2 := hexByte_roundtrip b2 h2
  have r3 := hexByte_roundtrip b3 h3
  have r4 := hexByte_roundtrip b4 h4
  have r5 := hexByte_roundtrip b5 h5
  have r6 := hexByte_roundtrip b6 h6
  have r7 := hexByte_roundtrip b7 h7
  have r8 := hexByte_roundtrip b8 h8
  have r9 := hexByte_roundtrip b9 h9
  have r10 := hexByte_roundtrip b10 h10
  have r11 := hexByte_roundtrip b11 h11
  have r12 := hexByte_roundtrip b12 h12
  have r13 := hexByte_roundtrip b13 h13
  have r14 := hexByte_roundtrip b14 h14
  have r15 := hexByte_roundtrip b15 h15
  have hcons : ((Uuid.from_bytes ⟨b0, b1, b2, b3, b4, b5, b6, b7, b8, b9, b10, b11, b12,
      b13, b14, b15⟩).to_str) =
      [hexLower (b0 / 16),
       hexLower (b0 % 16),
       hexLower (b1 / 16),
       hexLower (b1 % 16),
       hexLower (b2 / 16),
       hexLower (b2 % 16),
       hexLower (b3 / 16),
       hexLower (b3 % 16),
       45,
       hexLower (b4 / 16),
       hexLower (b4 % 16),
       hexLower (b5 / 16),
       hexLower (b5 % 16),
       45,
       hexLower (b6 / 16),
       hexLower (b6 % 16),
       hexLower (b7 / 16),
       hexLower (b7 % 16),
       45,
       hexLower (b8 / 16),
       hexLower (b8 % 16),
       hexLower (b9 / 16),
       hexLower (b9 % 16),
       45,
       hexLower (b10 / 16),
       hexLower (b10 % 16),
       hexLower (b11 / 16),
       hexLower (b11 % 16),
       hexLower (b12 / 16),
       hexLower (b12 % 16),
       hexLower (b13 / 16),
       hexLower (b13 % 16),
       hexLower (b14 / 16),
       hexLower (b14 % 16),
       hexLower (b15 / 16),
       hexLower (b15 % 16)] := by
    simp [Uuid.from_bytes, Uuid.to_str, hexByte]
  have hall : ((Uuid.from_bytes ⟨b0, b1, b2, b3, b4, b5, b6, b7, b8, b9, b10, b11, b12,
      b13, b14, b15⟩).to_str).all (fun c => c < 128) = true := by
    rw [hcons]
    simp only [List.all_cons, List.all_nil, Bool.and_eq_true, decide_eq_true_eq]
    and_intros <;> first
      | (apply hexLower_lt_128; omega)
      | norm_num
  have hlen : ((Uuid.from_bytes ⟨b0, b1, b2, b3, b4, b5, b6, b7, b8, b9, b10, b11, b12,
      b13, b14, b15⟩).to_str).length = 36 := by
    rw [hcons]
    rfl
  rw [parse_eq_parseHyph _ hall hlen]
  have hx : extract36 ((Uuid.from_bytes ⟨b0, b1, b2, b3, b4, b5, b6, b7, b8, b9, b10,
      b11, b12, b13, b14, b15⟩).to_str) =
      [hexLower (b0 / 16),
       hexLower (b0 % 16),
       hexLower (b1 / 16),
       hexLower (b1 % 16),
       hexLower (b2 / 16),
       hexLower (b2 % 16),
       hexLower (b3 / 16),
       hexLower (b3 % 16),
       hexLower (b4 / 16),
       hexLower (b4 % 16),
       hexLower (b5 / 16),
       hexLower (b5 % 16),
       hexLower (b6 / 16),
       hexLower (b6 % 16),
       hexLower (b7 / 16),
       hexLower (b7 % 16),
       hexLower (b8 / 16),
       hexLower (b8 % 16),
       hexLower (b9 / 16),
       hexLower (b9 % 16),
       hexLower (b10 / 16),
       hexLower (b10 % 16),
       hexLower (b11 / 16),
       hexLower (b11 % 16),
       hexLower (b12 / 16),
       hexLower (b12 % 16),
       hexLower (b13 / 16),
       hexLower (b13 % 16),
       hexLower (b14 / 16),
       hexLower (b14 % 16),
       hexLower (b15 / 16),
       hexLower (b15 % 16)] := by
    rw [hcons]
    rfl
  simp only [parseHyph, hx]
  simp [decodeHexPairs, listToUuid16, Uuid.from_bytes, Uuid.to_bytes,
    r0.1, r0.2.1, r0.2.2, r1.1, r1.2.1, r1.2.2, r2.1, r2.2.1, r2.2.2, r3.1, r3.2.1, r3.2.2, r4.1, r4.2.1, r4.2.2, r5.1, r5.2.1, r5.2.2, r6.1, r6.2.1, r6.2.2, r7.1, r7.2.1, r7.2.2, r8.1, r8.2.1, r8.2.2, r9.1, r9.2.1, r9.2.2, r10.1, r10.2.1, r10.2.2, r11.1, r11.2.1, r11.2.2, r12.1, r12.2.1, r12.2.2, r13.1, r13.2.1, r13.2.2, r14.1, r14.2.1, r14.2.2, r15.1, r15.2.1, r15.2.2]

theorem parse_to_str_roundtrip_witness :
    (Bytes.valid ⟨102, 42, 167, 199, 117, 152, 77, 86, 139, 204, 167, 44, 48, 249, 152, 162⟩) ∧
    (Uuid.parse ((Uuid.from_bytes ⟨102, 42, 167, 199, 117, 152, 77, 86, 139, 204, 167, 44,
        48, 249, 152, 162⟩).to_str)).map Uuid.to_bytes =
      some ⟨102, 42, 167, 199, 117, 152, 77, 86, 139, 204, 167, 44, 48, 249, 152, 162⟩ :=
  ⟨by decide, parse_to_str_roundtrip _ (by decide)⟩

set_option maxRecDepth 100000 in
/-- C1 counterexample: `new_v5(NAMESPACE_DNS, b"www.widgets.com")` does NOT
equal the claimed `3d813cbb-47fb-32ba-91df-831e1593ac29`; the SHA-1-based v5
output is `21f7f8de-8051-5b89-8680-0195ef798b6a`. -/
theorem new_v5_widgets_ne_rfc_value :
    Uuid.new_v5 NAMESPACE_DNS wwwWidgetsName ≠ rfcAppendixBValue ∧
    Uuid.new_v5 NAMESPACE_DNS wwwWidgetsName =
      Uuid.from_bytes ⟨0x21, 0xf7, 0xf8, 0xde, 0x80, 0x51, 0x5b, 0x89,
                       0x86, 0x80, 0x01, 0x95, 0xef, 0x79, 0x8b, 0x6a⟩ := by
  decide

set_option maxRecDepth 100000 in
/-- C1 amended: it is the MD5-based `new_v3(NAMESPACE_DNS, b"www.widgets.com")`
(the generator the repository's own `md5` test uses) that returns the
RFC-Appendix-B-with-errata-1352 value `3d813cbb-47fb-32ba-91df-831e1593ac29`. -/
theorem new_v3_widgets_eq_rfc_value :
    Uuid.new_v3 NAMESPACE_DNS wwwWidgetsName = rfcAppendixBValue := by
  decide

theorem getD_mem (l : List Nat) (i : Nat) (h : i < l.length) : l.getD i 0 ∈ l := by
  have he : l.getD i 0 = l[i] := by
    simp [List.getD_eq_getElem?_getD, List.getElem?_eq_getElem h]
  rw [he]
  exact List.getElem_mem h

theorem getD_drop (s : List Nat) (k i : Nat) : (s.drop k).getD i 0 = s.getD (k + i) 0 := by
  simp [List.getD_eq_getElem?_getD, List.getElem?_drop]

theorem getD_take (s : List Nat) (n i : Nat) (h : i < n) :
    (s.take n).getD i 0 = s.getD i 0 := by
  simp [List.getD_eq_getElem?_getD, List.getElem?_take_of_lt h]

theorem digitIdx36_lt : ∀ i ∈ digitIdx36, i < 36 := by decide

theorem getD_mem_extract36 : ∀ i ∈ digitIdx36, ∀ s : List Nat, s.getD i 0 ∈ extract36 s := by
  intro i hi s
  fin_cases hi <;> simp [extract36]

theorem decodeHexPairs_none : ∀ l : List Nat,
    (∃ c ∈ l, hexDigitVal c = none) → decodeHexPairs l = none
  | [], h => by simp at h
  | [_], _ => rfl
  | a :: b :: rest, h => by
      obtain ⟨c, hc, hbad⟩ := h
      simp only [decodeHexPairs]
      rcases List.mem_cons.mp hc with rfl | hc2
      · simp [hbad]
      · rcases List.mem_cons.mp hc2 with rfl | hc3
        · cases hva : hexDigitVal a
          · simp
          · simp [hbad]
        · have ih := decodeHexPairs_none rest ⟨c, hc3, hbad⟩
          cases hva : hexDigitVal a
          · simp
          · cases hvb : hexDigitVal b
            · simp
            · simp [ih]

theorem foldPos_absorb : ∀ l : List Nat, l.foldl radixStepPos none = none := by
  intro l
  induction l with
  | nil => rfl
  | cons a l ih =>
      rw [List.foldl_cons]
      have hstep : radixStepPos none a = none := rfl
      rw [hstep]
      exact ih

theorem foldPos_none (l : List Nat) (acc : Option Nat)
    (h : ∃ c ∈ l, hexDigitVal c = none) : l.foldl radixStepPos acc = none := by
  induction l generalizing acc with
  | nil => simp at h
  | cons a l ih =>
      obtain ⟨c, hc, hbad⟩ := h
      rcases List.mem_cons.mp hc with rfl | hc2
      · have hstep : radixStepPos acc c = none := by
          cases acc with
          | none => rfl
          | some v => simp [radixStepPos, hbad]
        rw [List.foldl_cons, hstep]
        exact foldPos_absorb l
      · rw [List.foldl_cons]
        exact ih _ ⟨c, hc2, hbad⟩

/-- C4 counterexample: a 45-character string whose first 9 characters are
`XXXXXXXXX`, not `urn:uuid:`, still parses successfully. -/
theorem parse_accepts_wrong_urn_head :
    badUrnInput.length = 45 ∧ badUrnInput.take 9 ≠ urnTag ∧
    Uuid.parse badUrnInput =
      some (Uuid.from_bytes ⟨102, 42, 167, 199, 117, 152, 77, 86,
                             139, 204, 167, 44, 48, 249, 152, 162⟩) := by
  decide

/-- C4 amended: `parse` strips the first 9 characters of a 45-character ASCII
input without validating them: it behaves exactly like `parse` of the last 36
characters, whatever the first 9 characters are. -/
theorem parse_urn_ignores_head (s : List Nat) (hlen : s.length = 45)
    (hascii : s.all (fun c => c < 128) = true) :
    Uuid.parse s = Uuid.parse (s.drop 9) := by
  have h2 : (s.drop 9).all (fun c => c < 128) = true := by
    rw [List.all_eq_true] at hascii ⊢
    exact fun x hx => hascii x (List.drop_subset 9 s hx)
  simp [Uuid.parse, hascii, h2, hlen]

theorem parse_urn_ignores_head_witness :
    badUrnInput.length = 45 ∧ badUrnInput.all (fun c => c < 128) = true ∧
    Uuid.parse badUrnInput = Uuid.parse (badUrnInput.drop 9) :=
  ⟨by decide, by decide, parse_urn_ignores_head badUrnInput (by decide) (by decide)⟩

/-- C3 counterexample: `662aa7c7z7598-4d56-8bcc-a72c30f998a2` has length 36
and contains `z` (ASCII 122, neither a hex digit nor a hyphen) at offset 8,
yet `parse` succeeds, because the four separator offsets are never looked
at. -/
theorem parse_accepts_nonhex_at_separator :
    sepZInput.length = 36 ∧ 122 ∈ sepZInput ∧ hexDigitVal 122 = none ∧ 122 ≠ 45 ∧
    Uuid.parse sepZInput =
      some (Uuid.from_bytes ⟨102, 42, 167, 199, 117, 152, 77, 86,
                             139, 204, 167, 44, 48, 249, 152, 162⟩) := by
  decide

/-- C3 amended: `parse` rejects non-ASCII input, every length other than
32/36/38/45, any non-hex character at one of the 32 decoded digit offsets of
the 36/38/45 forms (characters at the separator offsets and affixes are not
examined), and, for the 32-character form, any non-hex character anywhere
except a leading `+` sign; in particular a leading `-` is rejected, since the
sign-consuming arm of `from_str_radix` applies only to signed types. -/
theorem parse_rejects_malformed :
    (∀ s : List Nat, ¬ s.all (fun c => c < 128) = true → Uuid.parse s = none) ∧
    (∀ s : List Nat, s.length ∉ ([32, 36, 38, 45] : List Nat) → Uuid.parse s = none) ∧
    (∀ s : List Nat, s.length = 36 →
      (∃ i ∈ digitIdx36, hexDigitVal (s.getD i 0) = none) → Uuid.parse s = none) ∧
    (∀ s : List Nat, s.length = 38 →
      (∃ i ∈ digitIdx36, hexDigitVal (s.getD (1 + i) 0) = none) → Uuid.parse s = none) ∧
    (∀ s : List Nat, s.length = 45 →
      (∃ i ∈ digitIdx36, hexDigitVal (s.getD (9 + i) 0) = none) → Uuid.parse s = none) ∧
    (∀ s : List Nat, s.length = 32 →
      (∃ i, i < 32 ∧ hexDigitVal (s.getD i 0) = none ∧ (i ≠ 0 ∨ s.getD 0 0 ≠ 43)) →
      Uuid.parse s = none) := by
  refine ⟨?_, ?_, ?_, ?_, ?_, ?_⟩
  · intro s h
    simp only [Uuid.parse]
    rw [if_neg h]
  · intro s h
    simp only [List.mem_cons, List.not_mem_nil, or_false, not_or] at h
    obtain ⟨h32, h36, h38, h45⟩ := h
    by_cases ha : s.all (fun c => c < 128) = true
    · simp [Uuid.parse, ha, h32, h36, h38, h45]
    · simp [Uuid.parse, ha]
  · intro s hlen hbad
    obtain ⟨i, hi, hbadi⟩ := hbad
    by_cases ha : s.all (fun c => c < 128) = true
    · have hp : Uuid.parse s = parseHyph s := by simp [Uuid.parse, ha, hlen]
      rw [hp]
      show (decodeHexPairs (extract36 s)).bind listToUuid16 = none
      rw [decodeHexPairs_none _ ⟨_, getD_mem_extract36 i hi s, hbadi⟩]
      rfl
    · simp [Uuid.parse, ha]
  · intro s hlen hbad
    obtain ⟨i, hi, hbadi⟩ := hbad
    by_cases ha : s.all (fun c => c < 128) = true
    · have hp : Uuid.parse s = parseHyph ((s.drop 1).take 36) := by
        simp [Uuid.parse, ha, hlen]
      rw [hp]
      show (decodeHexPairs (extract36 ((s.drop 1).take 36))).bind listToUuid16 = none
      have he : ((s.drop 1).take 36).getD i 0 = s.getD (1 + i) 0 := by
        rw [getD_take _ _ _ (digitIdx36_lt i hi), getD_drop]
      rw [decodeHexPairs_none _ ⟨_, getD_mem_extract36 i hi _, by rw [he]; exact hbadi⟩]
      rfl
    · simp [Uuid.parse, ha]
  · intro s hlen hbad
    obtain ⟨i, hi, hbadi⟩ := hbad
    by_cases ha : s.all (fun c => c < 128) = true
    · have hp : Uuid.parse s = parseHyph (s.drop 9) := by
        simp [Uuid.parse, ha, hlen]
      rw [hp]
      show (decodeHexPairs (extract36 (s.drop 9))).bind listToUuid16 = none
      have he : (s.drop 9).getD i 0 = s.getD (9 + i) 0 := getD_drop s 9 i
      rw [decodeHexPairs_none _ ⟨_, getD_mem_extract36 i hi _, by rw [he]; exact hbadi⟩]
      rfl
    · simp [Uuid.parse, ha]
  · intro s hlen hbad
    by_cases ha : s.all (fun c => c < 128) = true
    · have hp : Uuid.parse s =
          (fromStrRadix16 s).map (fun v => Uuid.from_bytes (u128BeBytes v)) := by
        simp [Uuid.parse, ha, hlen]
      rw [hp]
      suffices hnone : fromStrRadix16 s = none by rw [hnone]; rfl
      cases s with
      | nil => simp at hlen
      | cons c rest =>
        have hrl : rest.length = 31 := by simpa using hlen
        have hrne : rest.isEmpty = false := by
          cases rest
          · simp at hrl
          · rfl
        obtain ⟨i, hi32, hbadi, hside⟩ := hbad
        by_cases hc : c = 43
        · subst hc
          have hine : i ≠ 0 := by
            rcases hside with hi0 | h43
            · exact hi0
            · simp at h43
          obtain ⟨i2, rfl⟩ : ∃ i2, i = i2 + 1 := ⟨i - 1, by omega⟩
          have hmem : rest.getD i2 0 ∈ rest := getD_mem rest i2 (by omega)
          have hbad2 : hexDigitVal (rest.getD i2 0) = none := by
            simpa using hbadi
          simp only [fromStrRadix16, if_pos rfl, hrne, Bool.false_eq_true, if_false]
          exact foldPos_none rest _ ⟨_, hmem, hbad2⟩
        · simp only [fromStrRadix16]
          rw [if_neg hc]
          have hmem : (c :: rest).getD i 0 ∈ c :: rest :=
            getD_mem (c :: rest) i (by simp [hrl]; omega)
          exact foldPos_none (c :: rest) _ ⟨_, hmem, hbadi⟩
    · simp [Uuid.parse, ha]

theorem parse_rejects_malformed_witness :
    Uuid.parse badLenInput = none ∧ Uuid.parse zDigitInput = none ∧
    Uuid.parse minusZerosInput = none :=
  ⟨parse_rejects_malformed.2.1 badLenInput (by decide),
   parse_rejects_malformed.2.2.1 zDigitInput (by decide) ⟨0, by decide, by decide⟩,
   parse_rejects_malformed.2.2.2.2.2 minusZerosInput (by decide)
     ⟨0, by decide, by decide, Or.inr (by decide)⟩⟩

end Nuuid
